import Mathlib

/-!
Verification of the str0m docker-bridge server (src/main.rs) against its
natural-language specification.

The development shallowly embeds src/main.rs. External collaborators are
parameters of the embedding:
 * the str0m session engine (`Rtc`) is an abstract state type with
   `poll` (poll_output) and `handleInput` (handle_input) functions;
 * the OS socket and clock are an oracle (`World`) answering each
   send_to / set_read_timeout / recv_from / Instant::now call by its
   call index;
 * serde and str0m signaling calls are parameters of the web handler.

Machine integers do not overflow in any modelled path, so byte values are
plain `Nat` and instants are `Nat` ticks; Rust `Instant - Instant`
saturates at zero and is modelled by truncated `Nat` subtraction.
-/

namespace Str0mBridge

/-- IP address (std::net::IpAddr), v4 as four octets, v6 kept abstract as
its segment list. -/
inductive IpAddr
  | v4 (a b c d : Nat)
  | v6 (segs : List Nat)
deriving DecidableEq, Repr, Inhabited

/-- Socket address: IP plus port (std::net::SocketAddr). -/
structure SocketAddr where
  ip : IpAddr
  port : Nat
deriving DecidableEq, Repr, Inhabited

/-- Kind of an std::io::Error, as matched by the loop at main.rs:206-210. -/
inductive IoErrorKind
  | wouldBlock
  | timedOut
  | other (code : Nat)
deriving DecidableEq, Repr

/-- True exactly for the two error kinds the loop treats as an elapsed
read timeout (ErrorKind::WouldBlock and ErrorKind::TimedOut). -/
def IoErrorKind.isTimeoutKind : IoErrorKind → Bool
  | .wouldBlock => true
  | .timedOut => true
  | .other _ => false

/-- Error type the loop returns (str0m::RtcError): an io error converted
by `?` via From, an engine protocol error, or a datagram parse error from
the TryFrom conversion at main.rs:201. -/
inductive RtcError
  | io (k : IoErrorKind)
  | proto (code : Nat)
  | netParse (code : Nat)
deriving DecidableEq, Repr

/-- str0m::IceConnectionState (the variants the loop distinguishes). -/
inductive IceConnectionState
  | new
  | checking
  | connected
  | completed
  | disconnected
deriving DecidableEq, Repr

/-- str0m::Event, with the one variant inspected by the loop explicit and
every other event abstracted by a tag. -/
inductive Event
  | iceConnectionStateChange (s : IceConnectionState)
  | otherEvent (tag : Nat)
deriving DecidableEq, Repr

/-- The event compared against at main.rs:173. -/
def disconnectedEv : Event := .iceConnectionStateChange .disconnected

/-- str0m transmit action: datagram contents plus destination. -/
structure Transmit where
  contents : List Nat
  destination : SocketAddr
deriving DecidableEq, Repr

/-- str0m::Output, the action returned by poll_output. Instants are Nat
ticks. -/
inductive Output
  | timeout (deadline : Nat)
  | transmit (v : Transmit)
  | event (v : Event)
deriving DecidableEq, Repr

/-- str0m::net::Protocol (only Udp is used by this program). -/
inductive Protocol
  | udp
  | tcp
deriving DecidableEq, Repr

/-- str0m::net::Receive: one received datagram handed to the engine.
Contents are the raw bytes (the DatagramRecv conversion is modelled as a
separate fallible validation, see World.datagram). -/
structure Receive where
  proto : Protocol
  source : SocketAddr
  destination : SocketAddr
  contents : List Nat
deriving DecidableEq, Repr

/-- str0m::Input, the input fed to handle_input. -/
inductive Input
  | timeout (t : Nat)
  | receive (t : Nat) (r : Receive)
deriving DecidableEq, Repr

/-- Abstract str0m session engine over an engine-state type: poll_output
and handle_input, both fallible with RtcError exactly as in the str0m
interface. -/
structure Engine (σ : Type) where
  poll : σ → Except RtcError (Output × σ)
  handleInput : σ → Input → Except RtcError σ

/-- Result of one socket recv_from call. -/
inductive RecvRes
  | ok (n : Nat) (source : SocketAddr)
  | err (k : IoErrorKind)
deriving DecidableEq, Repr

/-- Oracle for every external call the loop makes, answered by call
index: Instant::now samples, send_to results, set_read_timeout results,
recv_from results, and the DatagramRecv TryFrom validation of received
bytes (main.rs:201). -/
structure World where
  clock : Nat → Nat
  send : Nat → Except IoErrorKind Unit
  setReadTimeout : Nat → Except IoErrorKind Unit
  recv : Nat → RecvRes
  datagram : List Nat → Except RtcError Unit

/-- Mutable state of the run loop: the engine state, the reusable buffer
(`let mut buf = Vec::new()`), and how many calls of each external kind
have happened (indices into the World oracle). -/
structure RunState (σ : Type) where
  rtc : σ
  buf : List Nat
  nowIdx : Nat
  sendIdx : Nat
  srtIdx : Nat
  recvIdx : Nat

/-- Observable external actions of one loop run, in order. recvCall
records the length of the buffer passed to recv_from. -/
inductive TraceEv
  | polled (o : Output)
  | sent (contents : List Nat) (dest : SocketAddr)
  | setTimeout (d : Nat)
  | recvCall (buflen : Nat) (r : RecvRes)
  | fed (i : Input)
deriving DecidableEq, Repr

/-- Vec::resize semantics: truncate to n when longer, pad with v when
shorter. -/
def vecResize (l : List Nat) (n : Nat) (v : Nat) : List Nat :=
  l.take n ++ List.replicate (n - l.length) v

/-- Outcome of one iteration of the loop body: continue with a new state,
or return from run. -/
inductive StepRes (σ : Type)
  | cont (s : RunState σ)
  | done (r : Except RtcError Unit)

/-- The receive phase of one iteration (main.rs:188-213): set the read
timeout, resize the buffer to 2000, receive, build the input and feed it.
The `.polled` trace event is prepended by `step`. -/
def recvPhase {σ : Type} (E : Engine σ) (W : World) (ca : SocketAddr)
    (s : RunState σ) (rtc1 : σ) (tmo : Nat) : StepRes σ × List TraceEv :=
  match W.setReadTimeout s.srtIdx with
  | .error k => (.done (.error (.io k)), [.setTimeout tmo])
  | .ok _ =>
    let buf1 := vecResize s.buf 2000 0
    let now2 := W.clock (s.nowIdx + 1)
    match W.recv s.recvIdx with
    | .ok n source =>
      let buf2 := buf1.take n
      match W.datagram buf2 with
      | .error e =>
        (.done (.error e), [.setTimeout tmo, .recvCall buf1.length (.ok n source)])
      | .ok _ =>
        let inp := Input.receive now2 ⟨.udp, source, ca, buf2⟩
        match E.handleInput rtc1 inp with
        | .error e =>
          (.done (.error e),
           [.setTimeout tmo, .recvCall buf1.length (.ok n source), .fed inp])
        | .ok rtc2 =>
          (.cont { s with rtc := rtc2, buf := buf2, nowIdx := s.nowIdx + 2,
                          srtIdx := s.srtIdx + 1, recvIdx := s.recvIdx + 1 },
           [.setTimeout tmo, .recvCall buf1.length (.ok n source), .fed inp])
    | .err k =>
      if k.isTimeoutKind then
        let inp := Input.timeout now2
        match E.handleInput rtc1 inp with
        | .error e =>
          (.done (.error e),
           [.setTimeout tmo, .recvCall buf1.length (.err k), .fed inp])
        | .ok rtc2 =>
          (.cont { s with rtc := rtc2, buf := buf1, nowIdx := s.nowIdx + 2,
                          srtIdx := s.srtIdx + 1, recvIdx := s.recvIdx + 1 },
           [.setTimeout tmo, .recvCall buf1.length (.err k), .fed inp])
      else
        (.done (.error (.io k)), [.setTimeout tmo, .recvCall buf1.length (.err k)])

/-- One iteration of the loop body of `run` (main.rs:161-214): poll the
engine, dispatch on the action, possibly block on the socket, feed one
input. -/
def step {σ : Type} (E : Engine σ) (W : World) (ca : SocketAddr)
    (s : RunState σ) : StepRes σ × List TraceEv :=
  match E.poll s.rtc with
  | .error e => (.done (.error e), [])
  | .ok (o, rtc1) =>
    match o with
    | .transmit v =>
      (match W.send s.sendIdx with
       | .error k =>
         (.done (.error (.io k)), [.polled o, .sent v.contents v.destination])
       | .ok _ =>
         (.cont { s with rtc := rtc1, sendIdx := s.sendIdx + 1 },
          [.polled o, .sent v.contents v.destination]))
    | .event v =>
      if v = disconnectedEv then (.done (.ok ()), [.polled o])
      else (.cont { s with rtc := rtc1 }, [.polled o])
    | .timeout dl =>
      let tmo := dl - W.clock s.nowIdx
      if tmo = 0 then
        let now2 := W.clock (s.nowIdx + 1)
        match E.handleInput rtc1 (.timeout now2) with
        | .error e => (.done (.error e), [.polled o, .fed (.timeout now2)])
        | .ok rtc2 =>
          (.cont { s with rtc := rtc2, nowIdx := s.nowIdx + 2 },
           [.polled o, .fed (.timeout now2)])
      else
        let res := recvPhase E W ca s rtc1 tmo
        (res.1, .polled o :: res.2)

/-- The run loop (fn run, main.rs:157-215), fueled: none means fuel ran
out with the loop still going; some r is the value run returned. The
trace collects the external actions of the whole run. -/
def run {σ : Type} (E : Engine σ) (W : World) (ca : SocketAddr) :
    Nat → RunState σ → Option (Except RtcError Unit) × List TraceEv
  | 0, _ => (none, [])
  | Nat.succ fuel, s =>
    match step E W ca s with
    | (.done r, tr) => (some r, tr)
    | (.cont s2, tr) =>
      let rest := run E W ca fuel s2
      (rest.1, tr ++ rest.2)

/-- Initial loop state for engine state rtc0: empty buffer, no external
calls made yet. -/
def initState {σ : Type} (rtc0 : σ) : RunState σ :=
  { rtc := rtc0, buf := [], nowIdx := 0, sendIdx := 0, srtIdx := 0, recvIdx := 0 }

/-! Configuration parsing (parse_docker_config, main.rs:35-45). The std
IP-address string parser is external, so it is a parameter parseIp;
environment lookups of PUBLIC_IP and BIND_IP are the two Option String
arguments. -/

/-- Docker bridge mode configuration (main.rs:47-51). -/
structure DockerConfig where
  bind_ip : IpAddr
  public_ip : IpAddr
deriving DecidableEq, Repr

/-- The IPv4 wildcard address, the value of the constant expression
`"0.0.0.0".parse().unwrap()` at main.rs:42 under the std parser. -/
def wildcardIp : IpAddr := .v4 0 0 0 0

/-- The literal bind fallback string at main.rs:42. -/
def wildcardStr : String := "0.0.0.0"

/-- The protocol string passed to Candidate::host at main.rs:135. -/
def udpTag : String := "udp"

/-- parse_docker_config (main.rs:35-45): PUBLIC_IP must be present and
parse, else None; BIND_IP is used when present and parseable, otherwise
the bind address falls back to parsing "0.0.0.0". -/
def parse_docker_config (parseIp : String → Option IpAddr)
    (public_env bind_env : Option String) : Option DockerConfig :=
  match public_env with
  | none => none
  | some s =>
    match parseIp s with
    | none => none
    | some public_ip =>
      match bind_env.bind parseIp with
      | some bind_ip => some { bind_ip := bind_ip, public_ip := public_ip }
      | none => (parseIp wildcardStr).map fun w => { bind_ip := w, public_ip := public_ip }

/-! Socket setup and candidate address selection (main, main.rs:72-100).
The OS bind call is a parameter: given the requested IP and port it
returns the local address of the bound socket (socket.local_addr()), or
none when binding fails (in which case main aborts). -/

/-- OS socket layer for main: the result of UdpSocket::bind followed by
local_addr, per requested (ip, port). -/
structure OsNet where
  bindLocalAddr : IpAddr → Nat → Option SocketAddr

/-- What main computes at main.rs:72-100: the bind request it issued, the
address the socket reports, and the advertised candidate address. -/
structure SetupResult where
  bindIp : IpAddr
  bindPort : Nat
  boundAddr : SocketAddr
  candidateAddr : SocketAddr
deriving DecidableEq, Repr

/-- Socket setup (main.rs:72-100). In Docker bridge mode the socket is
bound on bind_ip:10000 and the candidate is (public_ip, bound port); in
standard mode the socket is bound on detected:0 and the candidate is the
bound address itself. The argument detected is the result of
util::select_host_address. Modelled from the spec: src/util.rs is not
among the sources; the spec says it auto-detects a single non-loopback
local interface address, so its result is passed in as a value. -/
def setup_socket (os : OsNet) (cfg : Option DockerConfig) (detected : IpAddr) :
    Option SetupResult :=
  match cfg with
  | some config =>
    (os.bindLocalAddr config.bind_ip 10000).map fun local_addr =>
      { bindIp := config.bind_ip, bindPort := 10000, boundAddr := local_addr,
        candidateAddr := { ip := config.public_ip, port := local_addr.port } }
  | none =>
    (os.bindLocalAddr detected 0).map fun addr =>
      { bindIp := detected, bindPort := 0, boundAddr := addr, candidateAddr := addr }

/-! The web request handler (web_request, main.rs:124-155). serde and the
str0m signaling calls are parameters; the handler result records the
response produced (or the panic message of an expect/unwrap) together
with the ordered engine operations it performed. -/

/-- Opaque SDP offer as deserialized by serde. -/
structure SdpOffer where
  tag : Nat
deriving DecidableEq, Repr

/-- Opaque SDP answer produced by accept_offer. -/
structure SdpAnswer where
  tag : Nat
deriving DecidableEq, Repr

/-- str0m::Candidate as used here: the address and protocol string given
to Candidate::host. -/
structure Candidate where
  addr : SocketAddr
  protoTag : String
deriving DecidableEq, Repr

/-- External calls of the signaling path: serde offer parsing,
Candidate::host success, add_local_candidate success, accept_offer, and
serde answer serialization. -/
structure SigExt where
  parseOffer : List Nat → Option SdpOffer
  hostOk : SocketAddr → String → Bool
  addCandidateOk : Candidate → Bool
  acceptOffer : SdpOffer → Option SdpAnswer
  serializeAnswer : SdpAnswer → Option (List Nat)

/-- Candidate::host(addr, proto) (main.rs:135): on success a host
candidate carrying exactly that address and protocol. -/
def candidateHost (ext : SigExt) (addr : SocketAddr) (p : String) : Option Candidate :=
  if ext.hostOk addr p then some { addr := addr, protoTag := p } else none

/-- Ordered observable operations of the signaling handler on the engine
and the thread spawn. -/
inductive SigOp
  | buildRtc (iceLite : Bool)
  | addLocalCandidate (c : Candidate)
  | acceptOffer (o : SdpOffer)
  | spawnRun (ca : SocketAddr)
deriving DecidableEq, Repr

/-- Result of web_request: the static page, a panic from expect/unwrap
(rouille catches it per request), or the answer response. -/
inductive WebOutcome
  | html (page : String)
  | panicked (msg : String)
  | ok (contentType : String) (body : List Nat)
deriving DecidableEq, Repr

/-- An inbound HTTP request as web_request sees it: its method string and
request.data() as an optional byte body. -/
structure Request where
  method : String
  body : Option (List Nat)
deriving DecidableEq, Repr

/-- Content of include_str!("../http-post.html"). Modelled from the
spec: the static client page file is not among the sources; only its
identity matters. -/
def http_post_html : String := "http-post.html"

/-- The non-GET path of web_request (main.rs:129-154): read the body,
parse the offer, build an ice-lite Rtc, add one host candidate, accept
the offer, spawn the run loop, serialize the answer. -/
def offer_submission (ext : SigExt) (req : Request) (candidate_addr : SocketAddr) :
    WebOutcome × List SigOp :=
  match req.body with
  | none => (.panicked ("body to be available"), [])
  | some data =>
    match ext.parseOffer data with
    | none => (.panicked ("serialized offer"), [])
    | some offer =>
      let ops0 := [SigOp.buildRtc true]
      match candidateHost ext candidate_addr udpTag with
      | none => (.panicked ("a host candidate"), ops0)
      | some candidate =>
        if ext.addCandidateOk candidate then
          let ops1 := ops0 ++ [SigOp.addLocalCandidate candidate]
          match ext.acceptOffer offer with
          | none => (.panicked ("offer to be accepted"), ops1)
          | some answer =>
            let ops2 := ops1 ++ [SigOp.acceptOffer offer, SigOp.spawnRun candidate_addr]
            match ext.serializeAnswer answer with
            | none => (.panicked ("answer to serialize"), ops2)
            | some body => (.ok ("application/json") body, ops2)
        else (.panicked ("called unwrap on an Err value"), ops0)

/-- web_request (main.rs:124-155): GET returns the static page, any other
method is treated as an SDP offer submission. -/
def web_request (ext : SigExt) (req : Request) (candidate_addr : SocketAddr) :
    WebOutcome × List SigOp :=
  if req.method = "GET" then (.html http_post_html, [])
  else offer_submission ext req candidate_addr

/-- One HTTP response as the client sees it. Modelled from the spec: the
rouille Server is external; a handler panic is caught by the server and
answered with an error response, it does not bring the process down. -/
inductive HttpResponse
  | htmlPage (page : String)
  | ok (contentType : String) (body : List Nat)
  | error500
deriving DecidableEq, Repr

/-- Dispatch of one request through web_request with the per-request
panic boundary of the server. -/
def dispatch (ext : SigExt) (ca : SocketAddr) (req : Request) : HttpResponse :=
  match (web_request ext req ca).1 with
  | .html p => .htmlPage p
  | .panicked _ => .error500
  | .ok ct b => .ok ct b

/-- The server handling a sequence of requests, each independently.
Modelled from the spec: the signaling handler must fail an individual
request without affecting other in-flight requests. -/
def serve (ext : SigExt) (ca : SocketAddr) (reqs : List Request) : List HttpResponse :=
  reqs.map (dispatch ext ca)

/-! Theorems. -/

/-- C8: configuration parsing produces the explicit docker configuration
exactly when the PUBLIC_IP environment variable is present and parses as
a valid IP address; in every produced configuration the bind address is
present, equal to the BIND_IP variable when present and parseable, and
otherwise the wildcard address obtained by parsing "0.0.0.0"; absence of
PUBLIC_IP yields no docker configuration (auto-detect mode). -/
theorem parse_docker_config_spec (parseIp : String → Option IpAddr)
    (public_env bind_env : Option String) (w : IpAddr)
    (hw : parseIp wildcardStr = some w) :
    ((parse_docker_config parseIp public_env bind_env).isSome ↔
      ∃ s ip, public_env = some s ∧ parseIp s = some ip)
    ∧ (∀ cfg, parse_docker_config parseIp public_env bind_env = some cfg →
        (∃ s, public_env = some s ∧ parseIp s = some cfg.public_ip)
        ∧ ((∃ s ip, bind_env = some s ∧ parseIp s = some ip ∧ cfg.bind_ip = ip)
           ∨ (bind_env.bind parseIp = none ∧ cfg.bind_ip = w)))
    ∧ (public_env = none → parse_docker_config parseIp public_env bind_env = none) := by
  refine ⟨?_, ?_, ?_⟩
  · constructor
    · intro h
      cases hpe : public_env with
      | none => rw [hpe] at h; simp [parse_docker_config] at h
      | some s =>
        cases hip : parseIp s with
        | none => rw [hpe] at h; simp [parse_docker_config, hip] at h
        | some ip => exact ⟨s, ip, rfl, hip⟩
    · rintro ⟨s, ip, rfl, hip⟩
      cases hb : bind_env.bind parseIp with
      | some b => simp [parse_docker_config, hip, hb]
      | none => simp [parse_docker_config, hip, hb, hw]
  · intro cfg hcfg
    cases hpe : public_env with
    | none => rw [hpe] at hcfg; simp [parse_docker_config] at hcfg
    | some s =>
      rw [hpe] at hcfg
      cases hip : parseIp s with
      | none => simp [parse_docker_config, hip] at hcfg
      | some ip =>
        cases hb : bind_env.bind parseIp with
        | some b =>
          have heq : parse_docker_config parseIp (some s) bind_env =
              some { bind_ip := b, public_ip := ip } := by
            simp [parse_docker_config, hip, hb]
          rw [heq] at hcfg
          obtain rfl := Option.some.inj hcfg
          obtain ⟨s2, hs2, hps2⟩ := Option.bind_eq_some.mp hb
          exact ⟨⟨s, rfl, hip⟩, Or.inl ⟨s2, b, hs2, hps2, rfl⟩⟩
        | none =>
          have heq : parse_docker_config parseIp (some s) bind_env =
              some { bind_ip := w, public_ip := ip } := by
            simp [parse_docker_config, hip, hb, hw]
          rw [heq] at hcfg
          obtain rfl := Option.some.inj hcfg
          exact ⟨⟨s, rfl, hip⟩, Or.inr ⟨rfl, rfl⟩⟩
  · intro h
    rw [h]
    simp [parse_docker_config]

/-- Concrete IP parser used to instantiate witness statements. -/
def parseIpW : String → Option IpAddr := fun s =>
  if s = "0.0.0.0" then some (.v4 0 0 0 0)
  else if s = "203.0.113.5" then some (.v4 203 0 113 5)
  else if s = "10.0.0.7" then some (.v4 10 0 0 7)
  else none

/-- Witness for parse_docker_config_spec at a concrete parser and
environment. -/
theorem parse_docker_config_spec_witness :
    (parse_docker_config parseIpW (some ("203.0.113.5")) (some ("10.0.0.7"))).isSome :=
  (parse_docker_config_spec parseIpW (some ("203.0.113.5")) (some ("10.0.0.7"))
      (.v4 0 0 0 0) rfl).1.mpr ⟨"203.0.113.5", .v4 203 0 113 5, rfl, rfl⟩

/-- C3: in Docker bridge mode the socket is bound on bind_ip:10000 and
the advertised candidate address is the configured public IP with the
port the socket actually reports after binding; in standard mode the
socket is bound on detected:0 and the advertised address is the bound
address itself, whose IP is the detected host IP (assuming the OS binds
the requested IP). In both modes the advertised port equals the bound
port. -/
theorem setup_socket_spec (os : OsNet) (detected : IpAddr)
    (hos : ∀ a, os.bindLocalAddr detected 0 = some a → a.ip = detected) :
    (∀ config r, setup_socket os (some config) detected = some r →
      r.bindIp = config.bind_ip ∧ r.bindPort = 10000 ∧
      r.candidateAddr.port = r.boundAddr.port ∧ r.candidateAddr.ip = config.public_ip)
    ∧ (∀ r, setup_socket os none detected = some r →
      r.bindIp = detected ∧ r.bindPort = 0 ∧
      r.candidateAddr.port = r.boundAddr.port ∧ r.candidateAddr.ip = detected) := by
  constructor
  · intro config r hr
    cases hb : os.bindLocalAddr config.bind_ip 10000 with
    | none => rw [setup_socket, hb] at hr; simp at hr
    | some a =>
      rw [setup_socket, hb] at hr
      obtain rfl := Option.some.inj hr
      exact ⟨rfl, rfl, rfl, rfl⟩
  · intro r hr
    cases hb : os.bindLocalAddr detected 0 with
    | none => rw [setup_socket, hb] at hr; simp at hr
    | some a =>
      rw [setup_socket, hb] at hr
      obtain rfl := Option.some.inj hr
      exact ⟨rfl, rfl, rfl, hos a hb⟩

/-- Concrete OS bind model used in witness statements: binding succeeds
on the requested IP, and the OS assigns port 39871 when port 0 was
requested. -/
def osW : OsNet :=
  { bindLocalAddr := fun ip p => some { ip := ip, port := if p = 0 then 39871 else p } }

/-- Witness for setup_socket_spec in standard mode at a concrete OS
model. -/
theorem setup_socket_spec_witness :
    (SetupResult.mk (.v4 10 0 0 7) 0 { ip := .v4 10 0 0 7, port := 39871 }
        { ip := .v4 10 0 0 7, port := 39871 }).bindIp = IpAddr.v4 10 0 0 7 ∧
    (SetupResult.mk (.v4 10 0 0 7) 0 { ip := .v4 10 0 0 7, port := 39871 }
        { ip := .v4 10 0 0 7, port := 39871 }).bindPort = 0 ∧
    (SetupResult.mk (.v4 10 0 0 7) 0 { ip := .v4 10 0 0 7, port := 39871 }
        { ip := .v4 10 0 0 7, port := 39871 }).candidateAddr.port =
      (SetupResult.mk (.v4 10 0 0 7) 0 { ip := .v4 10 0 0 7, port := 39871 }
        { ip := .v4 10 0 0 7, port := 39871 }).boundAddr.port ∧
    (SetupResult.mk (.v4 10 0 0 7) 0 { ip := .v4 10 0 0 7, port := 39871 }
        { ip := .v4 10 0 0 7, port := 39871 }).candidateAddr.ip = IpAddr.v4 10 0 0 7 :=
  (setup_socket_spec osW (.v4 10 0 0 7)
      (by intro a ha; rw [show osW.bindLocalAddr (.v4 10 0 0 7) 0 =
            some { ip := .v4 10 0 0 7, port := 39871 } from rfl] at ha
          obtain rfl := Option.some.inj ha; rfl)).2
    (SetupResult.mk (.v4 10 0 0 7) 0 { ip := .v4 10 0 0 7, port := 39871 }
      { ip := .v4 10 0 0 7, port := 39871 }) rfl

theorem offer_submission_not_html (ext : SigExt) (req : Request) (ca : SocketAddr)
    (p : String) : (offer_submission ext req ca).1 ≠ .html p := by
  unfold offer_submission
  obtain ⟨m, body⟩ := req
  cases body with
  | none => simp
  | some d =>
    simp only
    cases ext.parseOffer d with
    | none => simp
    | some offer =>
      simp only
      cases candidateHost ext ca udpTag with
      | none => simp
      | some c =>
        simp only
        by_cases hac : ext.addCandidateOk c
        · simp only [hac, if_true]
          cases ext.acceptOffer offer with
          | none => simp
          | some ans =>
            simp only
            cases ext.serializeAnswer ans with
            | none => simp
            | some b => simp
        · simp [hac]

/-- C4: a non-GET request whose body is absent or does not parse as an
offer makes the handler panic, which the server catches at the request
boundary: that one request gets an error response and no answer, and a
served request sequence handles every other request independently of
it. -/
theorem web_request_bad_body_isolated (ext : SigExt) (ca : SocketAddr) :
    (∀ req, req.method ≠ "GET" →
      (req.body = none ∨ ∃ d, req.body = some d ∧ ext.parseOffer d = none) →
      dispatch ext ca req = .error500 ∧
      ∀ ct b, (web_request ext req ca).1 ≠ .ok ct b)
    ∧ (∀ l1 l2 req, serve ext ca (l1 ++ req :: l2) =
        serve ext ca l1 ++ dispatch ext ca req :: serve ext ca l2) := by
  constructor
  · intro req hm hbad
    have hout : ∃ msg, (web_request ext req ca).1 = .panicked msg := by
      rcases hbad with hnone | ⟨d, hd, hp⟩
      · exact ⟨"body to be available", by simp [web_request, hm, offer_submission, hnone]⟩
      · exact ⟨"serialized offer", by simp [web_request, hm, offer_submission, hd, hp]⟩
    obtain ⟨msg, hmsg⟩ := hout
    constructor
    · simp [dispatch, hmsg]
    · intro ct b
      rw [hmsg]
      simp
  · intro l1 l2 req
    simp [serve]

/-- Witness for web_request_bad_body_isolated at a concrete externals
bundle and an empty-body POST request. -/
def extW : SigExt :=
  { parseOffer := fun d => if d = [1] then some { tag := 7 } else none,
    hostOk := fun _ p => p == "udp",
    addCandidateOk := fun _ => true,
    acceptOffer := fun o => some { tag := o.tag + 1 },
    serializeAnswer := fun a => some [a.tag] }

/-- Advertised candidate address used in witness statements. -/
def caW : SocketAddr := { ip := .v4 203 0 113 5, port := 39871 }

/-- Valid offer-submission request used in witness statements. -/
def reqW : Request := { method := "POST", body := some [1] }

theorem web_request_bad_body_isolated_witness :
    dispatch extW caW { method := "POST", body := none } = .error500 ∧
    ∀ ct b, (web_request extW { method := "POST", body := none } caW).1 ≠ .ok ct b :=
  (web_request_bad_body_isolated extW caW).1 { method := "POST", body := none }
    (by decide) (Or.inl rfl)

/-- Marks the candidate-registration operations of a signaling trace. -/
def SigOp.isAddCandidate : SigOp → Bool
  | .addLocalCandidate _ => true
  | _ => false

/-- C5: on an accepted offer the handler builds a fresh ice-lite session,
registers exactly one local candidate, the host candidate carrying the
advertised socket address with the udp protocol tag, and only then
accepts the offer and spawns the loop, whatever the answer serialization
does. -/
theorem web_request_session_setup (ext : SigExt) (ca : SocketAddr) (req : Request)
    (d : List Nat) (offer : SdpOffer) (ans : SdpAnswer)
    (hm : req.method ≠ "GET") (hb : req.body = some d)
    (hp : ext.parseOffer d = some offer)
    (hh : ext.hostOk ca udpTag = true)
    (hac : ext.addCandidateOk { addr := ca, protoTag := udpTag } = true)
    (hoff : ext.acceptOffer offer = some ans) :
    (web_request ext req ca).2 =
      [.buildRtc true, .addLocalCandidate { addr := ca, protoTag := udpTag },
       .acceptOffer offer, .spawnRun ca]
    ∧ ((web_request ext req ca).2.filter SigOp.isAddCandidate) =
      [.addLocalCandidate { addr := ca, protoTag := udpTag }] := by
  have h2 : (web_request ext req ca).2 =
      [.buildRtc true, .addLocalCandidate { addr := ca, protoTag := udpTag },
       .acceptOffer offer, .spawnRun ca] := by
    cases hs : ext.serializeAnswer ans <;>
      simp [web_request, hm, offer_submission, hb, hp, candidateHost, hh, hac, hoff, hs]
  exact ⟨h2, by rw [h2]; rfl⟩

theorem web_request_session_setup_witness :
    (web_request extW reqW caW).2 =
      [.buildRtc true, .addLocalCandidate { addr := caW, protoTag := udpTag },
       .acceptOffer { tag := 7 }, .spawnRun caW] ∧
    ((web_request extW reqW caW).2.filter SigOp.isAddCandidate) =
      [.addLocalCandidate { addr := caW, protoTag := udpTag }] :=
  web_request_session_setup extW caW reqW [1] { tag := 7 } { tag := 8 }
    (by decide) rfl rfl rfl rfl rfl

/-- C10: the handler dispatches on the method being exactly GET: a GET
request yields the static page and nothing else does; every non-GET
request, whatever its method, is processed by the offer-submission path,
and with a valid offer body it yields the json answer response and
records the loop spawn. -/
theorem web_request_method_dispatch (ext : SigExt) (ca : SocketAddr) :
    (∀ req, ((web_request ext req ca).1 = .html http_post_html ↔ req.method = "GET"))
    ∧ (∀ req, req.method ≠ "GET" → web_request ext req ca = offer_submission ext req ca)
    ∧ (∀ req d offer ans body2, req.method ≠ "GET" → req.body = some d →
        ext.parseOffer d = some offer → ext.hostOk ca udpTag = true →
        ext.addCandidateOk { addr := ca, protoTag := udpTag } = true →
        ext.acceptOffer offer = some ans → ext.serializeAnswer ans = some body2 →
        (web_request ext req ca).1 = .ok ("application/json") body2 ∧
        SigOp.spawnRun ca ∈ (web_request ext req ca).2) := by
  refine ⟨?_, ?_, ?_⟩
  · intro req
    by_cases hm : req.method = "GET"
    · simp [web_request, hm]
    · rw [web_request, if_neg hm]
      simp [hm, offer_submission_not_html ext req ca http_post_html]
  · intro req hm
    rw [web_request, if_neg hm]
  · intro req d offer ans body2 hm hb hp hh hac hoff hs
    constructor
    · simp [web_request, hm, offer_submission, hb, hp, candidateHost, hh, hac, hoff, hs]
    · simp [web_request, hm, offer_submission, hb, hp, candidateHost, hh, hac, hoff, hs]

theorem web_request_method_dispatch_witness :
    (web_request extW { method := "PUT", body := some [1] } caW).1 =
      .ok ("application/json") [8] ∧
    SigOp.spawnRun caW ∈ (web_request extW { method := "PUT", body := some [1] } caW).2 :=
  (web_request_method_dispatch extW caW).2.2 { method := "PUT", body := some [1] }
    [1] { tag := 7 } { tag := 8 } [8] (by decide) rfl rfl rfl rfl rfl rfl

theorem vecResize_length (l : List Nat) (n v : Nat) : (vecResize l n v).length = n := by
  simp [vecResize]
  omega

theorem recvPhase_setTimeout_eq {σ : Type} (E : Engine σ) (W : World) (ca : SocketAddr)
    (s : RunState σ) (rtc1 : σ) (tmo d : Nat)
    (h : TraceEv.setTimeout d ∈ (recvPhase E W ca s rtc1 tmo).2) : d = tmo := by
  unfold recvPhase at h
  cases hsrt : W.setReadTimeout s.srtIdx with
  | error k => rw [hsrt] at h; simp at h; exact h
  | ok u =>
    rw [hsrt] at h
    simp only at h
    cases hr : W.recv s.recvIdx with
    | ok n source =>
      rw [hr] at h
      simp only at h
      cases hdg : W.datagram ((vecResize s.buf 2000 0).take n) with
      | error e => rw [hdg] at h; simp at h; exact h
      | ok u2 =>
        rw [hdg] at h
        simp only at h
        cases hE : E.handleInput rtc1 (.receive (W.clock (s.nowIdx + 1))
            { proto := .udp, source := source, destination := ca,
              contents := (vecResize s.buf 2000 0).take n }) with
        | error e => rw [hE] at h; simp at h; exact h
        | ok rtc2 => rw [hE] at h; simp at h; exact h
    | err k =>
      rw [hr] at h
      simp only at h
      by_cases hk : k.isTimeoutKind
      · rw [if_pos hk] at h
        cases hE : E.handleInput rtc1 (.timeout (W.clock (s.nowIdx + 1))) with
        | error e => rw [hE] at h; simp at h; exact h
        | ok rtc2 => rw [hE] at h; simp at h; exact h
      · rw [if_neg hk] at h
        simp at h
        exact h

theorem step_setTimeout_pos {σ : Type} (E : Engine σ) (W : World) (ca : SocketAddr)
    (s : RunState σ) (d : Nat)
    (h : TraceEv.setTimeout d ∈ (step E W ca s).2) : 0 < d := by
  unfold step at h
  cases hp : E.poll s.rtc with
  | error e => rw [hp] at h; simp at h
  | ok p =>
    rw [hp] at h
    obtain ⟨o, rtc1⟩ := p
    cases o with
    | transmit v =>
      simp only at h
      cases hs2 : W.send s.sendIdx with
      | error k => rw [hs2] at h; simp at h
      | ok u => rw [hs2] at h; simp at h
    | event v =>
      simp only at h
      by_cases hv : v = disconnectedEv
      · rw [if_pos hv] at h; simp at h
      · rw [if_neg hv] at h; simp at h
    | timeout dl =>
      simp only at h
      by_cases hz : dl - W.clock s.nowIdx = 0
      · rw [if_pos hz] at h
        cases hE : E.handleInput rtc1 (.timeout (W.clock (s.nowIdx + 1))) with
        | error e => rw [hE] at h; simp at h
        | ok rtc2 => rw [hE] at h; simp at h
      · rw [if_neg hz] at h
        simp only [List.mem_cons] at h
        rcases h with h | h
        · exact absurd h (by simp)
        · have := recvPhase_setTimeout_eq E W ca s rtc1 (dl - W.clock s.nowIdx) d h
          omega

theorem run_setTimeout_pos {σ : Type} (E : Engine σ) (W : World) (ca : SocketAddr)
    (fuel : Nat) : ∀ s d, TraceEv.setTimeout d ∈ (run E W ca fuel s).2 → 0 < d := by
  induction fuel with
  | zero => intro s d h; simp [run] at h
  | succ n ih =>
    intro s d h
    rw [run] at h
    cases hstep : step E W ca s with
    | mk res tr =>
      rw [hstep] at h
      cases res with
      | done r =>
        simp only at h
        exact step_setTimeout_pos E W ca s d (by rw [hstep]; exact h)
      | cont s2 =>
        simp only [List.mem_append] at h
        rcases h with h | h
        · exact step_setTimeout_pos E W ca s d (by rw [hstep]; exact h)
        · exact ih s2 d h

/-- C1: the loop never arms the socket read timeout with a zero or
negative duration: when a poll yields a Wait whose deadline is already
reached, the only externally visible actions of that iteration are the
poll and feeding a DeadlineElapsed input, with no receive call in
between, and every read timeout armed anywhere in a run is positive. -/
theorem run_no_zero_timeout_receive {σ : Type} (E : Engine σ) (W : World)
    (ca : SocketAddr) :
    (∀ s dl σ2, E.poll s.rtc = .ok (.timeout dl, σ2) →
      dl - W.clock s.nowIdx = 0 →
      (step E W ca s).2 =
        [.polled (.timeout dl), .fed (.timeout (W.clock (s.nowIdx + 1)))])
    ∧ (∀ fuel s d, TraceEv.setTimeout d ∈ (run E W ca fuel s).2 → 0 < d) := by
  constructor
  · intro s dl σ2 hpoll hzero
    unfold step
    rw [hpoll]
    simp only [hzero, if_pos rfl]
    cases E.handleInput σ2 (.timeout (W.clock (s.nowIdx + 1))) with
    | error e => rfl
    | ok rtc2 => rfl
  · exact fun fuel => run_setTimeout_pos E W ca fuel

/-- Engine used in witness statements: it always asks to wait until tick
0 and accepts every input. -/
def engW : Engine Unit :=
  { poll := fun u => .ok (.timeout 0, u),
    handleInput := fun u _ => .ok u }

/-- World used in witness statements for the elapsed-deadline path: the
clock stands at tick 5, receives would report WouldBlock. -/
def worldW : World :=
  { clock := fun _ => 5,
    send := fun _ => .ok (),
    setReadTimeout := fun _ => .ok (),
    recv := fun _ => .err .wouldBlock,
    datagram := fun _ => .ok () }

theorem run_no_zero_timeout_receive_witness :
    (step engW worldW caW (initState ())).2 =
      [.polled (.timeout 0), .fed (.timeout 5)] :=
  (run_no_zero_timeout_receive engW worldW caW).1 (initState ()) 0 () rfl rfl

/-- C7: when the receive succeeds with n bytes from source s, the input
fed to the engine is a Received input timestamped with the clock sample
taken at receipt, whose payload is the 2000-byte receive buffer
truncated to the n received bytes, whose source is s and whose
destination is the advertised candidate address; when n fits the buffer
the payload length is exactly n. -/
theorem run_receive_input_shape {σ : Type} (E : Engine σ) (W : World) (ca : SocketAddr)
    (s : RunState σ) (dl : Nat) (σ2 : σ) (n : Nat) (source : SocketAddr)
    (hpoll : E.poll s.rtc = .ok (.timeout dl, σ2))
    (hpos : 0 < dl - W.clock s.nowIdx)
    (hsrt : W.setReadTimeout s.srtIdx = .ok ())
    (hrecv : W.recv s.recvIdx = .ok n source)
    (hn : n ≤ 2000)
    (hdg : W.datagram ((vecResize s.buf 2000 0).take n) = .ok ()) :
    (step E W ca s).2 =
      [.polled (.timeout dl), .setTimeout (dl - W.clock s.nowIdx),
       .recvCall 2000 (.ok n source),
       .fed (.receive (W.clock (s.nowIdx + 1))
         { proto := .udp, source := source, destination := ca,
           contents := (vecResize s.buf 2000 0).take n })]
    ∧ ((vecResize s.buf 2000 0).take n).length = n := by
  constructor
  · have hz : ¬(dl - W.clock s.nowIdx = 0) := Nat.pos_iff_ne_zero.mp hpos
    cases hE : E.handleInput σ2 (.receive (W.clock (s.nowIdx + 1))
        { proto := .udp, source := source, destination := ca,
          contents := (vecResize s.buf 2000 0).take n }) with
    | error e => simp [step, hpoll, hz, recvPhase, hsrt, hrecv, hdg, hE, vecResize_length]
    | ok rtc2 => simp [step, hpoll, hz, recvPhase, hsrt, hrecv, hdg, hE, vecResize_length]
  · rw [List.length_take, vecResize_length]
    omega

/-- Engine used in receive-path witness statements: it always asks to
wait until tick 3 and accepts every input. -/
def engRecvW : Engine Unit :=
  { poll := fun u => .ok (.timeout 3, u),
    handleInput := fun u _ => .ok u }

/-- World used in receive-path witness statements: clock at tick 1, a
3-byte datagram arriving from 9.9.9.9:4242. -/
def worldRecvW : World :=
  { clock := fun _ => 1,
    send := fun _ => .ok (),
    setReadTimeout := fun _ => .ok (),
    recv := fun _ => .ok 3 { ip := .v4 9 9 9 9, port := 4242 },
    datagram := fun _ => .ok () }

theorem run_receive_input_shape_witness :
    (step engRecvW worldRecvW caW (initState ())).2 =
      [.polled (.timeout 3), .setTimeout 2,
       .recvCall 2000 (.ok 3 { ip := .v4 9 9 9 9, port := 4242 }),
       .fed (.receive 1
         { proto := .udp, source := { ip := .v4 9 9 9 9, port := 4242 },
           destination := caW, contents := (vecResize ([] : List Nat) 2000 0).take 3 })]
    ∧ ((vecResize ([] : List Nat) 2000 0).take 3).length = 3 :=
  run_receive_input_shape engRecvW worldRecvW caW (initState ()) 3 () 3
    { ip := .v4 9 9 9 9, port := 4242 } rfl (by decide) rfl rfl (by decide) rfl

/-- Engine used in the would-block witness: it always asks to wait until
tick 10 and accepts every input. -/
def engWaitW : Engine Unit :=
  { poll := fun u => .ok (.timeout 10, u),
    handleInput := fun u _ => .ok u }

/-- C6: a would-block or timed-out receive is not treated as an error:
that iteration feeds the engine a DeadlineElapsed input and its outcome
is decided solely by the answer of the engine to that input, while a receive
failing with any other error kind terminates the loop with that io
error. -/
theorem run_timeout_error_benign {σ : Type} (E : Engine σ) (W : World) (ca : SocketAddr)
    (s : RunState σ) (dl : Nat) (σ2 : σ)
    (hpoll : E.poll s.rtc = .ok (.timeout dl, σ2))
    (hpos : 0 < dl - W.clock s.nowIdx)
    (hsrt : W.setReadTimeout s.srtIdx = .ok ()) :
    (∀ k, W.recv s.recvIdx = .err k → k.isTimeoutKind = true →
      (step E W ca s).2 =
        [.polled (.timeout dl), .setTimeout (dl - W.clock s.nowIdx),
         .recvCall 2000 (.err k), .fed (.timeout (W.clock (s.nowIdx + 1)))]
      ∧ (∀ σ3, E.handleInput σ2 (.timeout (W.clock (s.nowIdx + 1))) = .ok σ3 →
          (step E W ca s).1 = .cont
            { s with
              rtc := σ3, buf := vecResize s.buf 2000 0, nowIdx := s.nowIdx + 2,
              srtIdx := s.srtIdx + 1, recvIdx := s.recvIdx + 1 })
      ∧ (∀ e, E.handleInput σ2 (.timeout (W.clock (s.nowIdx + 1))) = .error e →
          (step E W ca s).1 = .done (.error e)))
    ∧ (∀ k, W.recv s.recvIdx = .err k → k.isTimeoutKind = false →
        (step E W ca s).1 = .done (.error (.io k))) := by
  have hz : ¬(dl - W.clock s.nowIdx = 0) := Nat.pos_iff_ne_zero.mp hpos
  constructor
  · intro k hrecv hk
    refine ⟨?_, ?_, ?_⟩
    · cases hE : E.handleInput σ2 (.timeout (W.clock (s.nowIdx + 1))) with
      | error e => simp [step, hpoll, hz, recvPhase, hsrt, hrecv, hk, hE, vecResize_length]
      | ok rtc2 => simp [step, hpoll, hz, recvPhase, hsrt, hrecv, hk, hE, vecResize_length]
    · intro σ3 hE
      simp [step, hpoll, hz, recvPhase, hsrt, hrecv, hk, hE]
    · intro e hE
      simp [step, hpoll, hz, recvPhase, hsrt, hrecv, hk, hE]
  · intro k hrecv hk
    simp [step, hpoll, hz, recvPhase, hsrt, hrecv, hk]

theorem run_timeout_error_benign_witness :
    (step engWaitW worldW caW (initState ())).2 =
      [.polled (.timeout 10), .setTimeout 5, .recvCall 2000 (.err .wouldBlock),
       .fed (.timeout 5)] :=
  ((run_timeout_error_benign engWaitW worldW caW (initState ()) 10 ()
      rfl (by decide) rfl).1 .wouldBlock rfl rfl).1

theorem recvPhase_fed_receive_le {σ : Type} (E : Engine σ) (W : World) (ca : SocketAddr)
    (s : RunState σ) (rtc1 : σ) (tmo : Nat) (t : Nat) (r : Receive)
    (h : TraceEv.fed (.receive t r) ∈ (recvPhase E W ca s rtc1 tmo).2) :
    r.contents.length ≤ 2000 := by
  unfold recvPhase at h
  cases hsrt : W.setReadTimeout s.srtIdx with
  | error k => rw [hsrt] at h; simp at h
  | ok u =>
    rw [hsrt] at h
    simp only at h
    cases hr : W.recv s.recvIdx with
    | ok n source =>
      rw [hr] at h
      simp only at h
      cases hdg : W.datagram ((vecResize s.buf 2000 0).take n) with
      | error e => rw [hdg] at h; simp at h
      | ok u2 =>
        rw [hdg] at h
        simp only at h
        cases hE : E.handleInput rtc1 (.receive (W.clock (s.nowIdx + 1))
            { proto := .udp, source := source, destination := ca,
              contents := (vecResize s.buf 2000 0).take n }) with
        | error e =>
          rw [hE] at h
          simp at h
          obtain ⟨ht, hr2⟩ := h
          subst hr2
          show ((vecResize s.buf 2000 0).take n).length ≤ 2000
          rw [List.length_take, vecResize_length]
          omega
        | ok rtc2 =>
          rw [hE] at h
          simp at h
          obtain ⟨ht, hr2⟩ := h
          subst hr2
          show ((vecResize s.buf 2000 0).take n).length ≤ 2000
          rw [List.length_take, vecResize_length]
          omega
    | err k =>
      rw [hr] at h
      simp only at h
      by_cases hk : k.isTimeoutKind
      · rw [if_pos hk] at h
        cases hE : E.handleInput rtc1 (.timeout (W.clock (s.nowIdx + 1))) with
        | error e => rw [hE] at h; simp at h
        | ok rtc2 => rw [hE] at h; simp at h
      · rw [if_neg hk] at h; simp at h

theorem recvPhase_recvCall_buflen {σ : Type} (E : Engine σ) (W : World) (ca : SocketAddr)
    (s : RunState σ) (rtc1 : σ) (tmo : Nat) (bl : Nat) (rr : RecvRes)
    (h : TraceEv.recvCall bl rr ∈ (recvPhase E W ca s rtc1 tmo).2) : bl = 2000 := by
  unfold recvPhase at h
  cases hsrt : W.setReadTimeout s.srtIdx with
  | error k => rw [hsrt] at h; simp at h
  | ok u =>
    rw [hsrt] at h
    simp only at h
    cases hr : W.recv s.recvIdx with
    | ok n source =>
      rw [hr] at h
      simp only at h
      cases hdg : W.datagram ((vecResize s.buf 2000 0).take n) with
      | error e =>
        rw [hdg] at h
        simp at h
        rw [h.1, vecResize_length]
      | ok u2 =>
        rw [hdg] at h
        simp only at h
        cases hE : E.handleInput rtc1 (.receive (W.clock (s.nowIdx + 1))
            { proto := .udp, source := source, destination := ca,
              contents := (vecResize s.buf 2000 0).take n }) with
        | error e =>
          rw [hE] at h
          simp at h
          rw [h.1, vecResize_length]
        | ok rtc2 =>
          rw [hE] at h
          simp at h
          rw [h.1, vecResize_length]
    | err k =>
      rw [hr] at h
      simp only at h
      by_cases hk : k.isTimeoutKind
      · rw [if_pos hk] at h
        cases hE : E.handleInput rtc1 (.timeout (W.clock (s.nowIdx + 1))) with
        | error e =>
          rw [hE] at h
          simp at h
          rw [h.1, vecResize_length]
        | ok rtc2 =>
          rw [hE] at h
          simp at h
          rw [h.1, vecResize_length]
      · rw [if_neg hk] at h
        simp at h
        rw [h.1, vecResize_length]

theorem step_fed_receive_le {σ : Type} (E : Engine σ) (W : World) (ca : SocketAddr)
    (s : RunState σ) (t : Nat) (r : Receive)
    (h : TraceEv.fed (.receive t r) ∈ (step E W ca s).2) : r.contents.length ≤ 2000 := by
  unfold step at h
  cases hp : E.poll s.rtc with
  | error e => rw [hp] at h; simp at h
  | ok p =>
    rw [hp] at h
    obtain ⟨o, rtc1⟩ := p
    cases o with
    | transmit v =>
      simp only at h
      cases hs2 : W.send s.sendIdx with
      | error k => rw [hs2] at h; simp at h
      | ok u => rw [hs2] at h; simp at h
    | event v =>
      simp only at h
      by_cases hv : v = disconnectedEv
      · rw [if_pos hv] at h; simp at h
      · rw [if_neg hv] at h; simp at h
    | timeout dl =>
      simp only at h
      by_cases hz : dl - W.clock s.nowIdx = 0
      · rw [if_pos hz] at h
        cases hE : E.handleInput rtc1 (.timeout (W.clock (s.nowIdx + 1))) with
        | error e => rw [hE] at h; simp at h
        | ok rtc2 => rw [hE] at h; simp at h
      · rw [if_neg hz] at h
        simp only [List.mem_cons] at h
        rcases h with h | h
        · exact absurd h (by simp)
        · exact recvPhase_fed_receive_le E W ca s rtc1 (dl - W.clock s.nowIdx) t r h

theorem step_recvCall_buflen {σ : Type} (E : Engine σ) (W : World) (ca : SocketAddr)
    (s : RunState σ) (bl : Nat) (rr : RecvRes)
    (h : TraceEv.recvCall bl rr ∈ (step E W ca s).2) : bl = 2000 := by
  unfold step at h
  cases hp : E.poll s.rtc with
  | error e => rw [hp] at h; simp at h
  | ok p =>
    rw [hp] at h
    obtain ⟨o, rtc1⟩ := p
    cases o with
    | transmit v =>
      simp only at h
      cases hs2 : W.send s.sendIdx with
      | error k => rw [hs2] at h; simp at h
      | ok u => rw [hs2] at h; simp at h
    | event v =>
      simp only at h
      by_cases hv : v = disconnectedEv
      · rw [if_pos hv] at h; simp at h
      · rw [if_neg hv] at h; simp at h
    | timeout dl =>
      simp only at h
      by_cases hz : dl - W.clock s.nowIdx = 0
      · rw [if_pos hz] at h
        cases hE : E.handleInput rtc1 (.timeout (W.clock (s.nowIdx + 1))) with
        | error e => rw [hE] at h; simp at h
        | ok rtc2 => rw [hE] at h; simp at h
      · rw [if_neg hz] at h
        simp only [List.mem_cons] at h
        rcases h with h | h
        · exact absurd h (by simp)
        · exact recvPhase_recvCall_buflen E W ca s rtc1 (dl - W.clock s.nowIdx) bl rr h

theorem run_fed_receive_le {σ : Type} (E : Engine σ) (W : World) (ca : SocketAddr)
    (fuel : Nat) : ∀ s t r, TraceEv.fed (.receive t r) ∈ (run E W ca fuel s).2 →
    r.contents.length ≤ 2000 := by
  induction fuel with
  | zero => intro s t r h; simp [run] at h
  | succ n ih =>
    intro s t r h
    rw [run] at h
    cases hstep : step E W ca s with
    | mk res tr =>
      rw [hstep] at h
      cases res with
      | done r2 =>
        simp only at h
        exact step_fed_receive_le E W ca s t r (by rw [hstep]; exact h)
      | cont s2 =>
        simp only [List.mem_append] at h
        rcases h with h | h
        · exact step_fed_receive_le E W ca s t r (by rw [hstep]; exact h)
        · exact ih s2 t r h

theorem run_recvCall_buflen {σ : Type} (E : Engine σ) (W : World) (ca : SocketAddr)
    (fuel : Nat) : ∀ s bl rr, TraceEv.recvCall bl rr ∈ (run E W ca fuel s).2 →
    bl = 2000 := by
  induction fuel with
  | zero => intro s bl rr h; simp [run] at h
  | succ n ih =>
    intro s bl rr h
    rw [run] at h
    cases hstep : step E W ca s with
    | mk res tr =>
      rw [hstep] at h
      cases res with
      | done r2 =>
        simp only at h
        exact step_recvCall_buflen E W ca s bl rr (by rw [hstep]; exact h)
      | cont s2 =>
        simp only [List.mem_append] at h
        rcases h with h | h
        · exact step_recvCall_buflen E W ca s bl rr (by rw [hstep]; exact h)
        · exact ih s2 bl rr h

/-- C9: every Received input fed to the engine anywhere in a run carries
a payload of at most 2000 bytes, and every receive call anywhere in a
run is issued on a buffer of exactly 2000 bytes, so a longer inbound
datagram is truncated rather than rejected or delivered in full. -/
theorem run_receive_payload_bounded {σ : Type} (E : Engine σ) (W : World)
    (ca : SocketAddr) :
    (∀ fuel s t r, TraceEv.fed (.receive t r) ∈ (run E W ca fuel s).2 →
      r.contents.length ≤ 2000)
    ∧ (∀ fuel s bl rr, TraceEv.recvCall bl rr ∈ (run E W ca fuel s).2 → bl = 2000) :=
  ⟨fun fuel => run_fed_receive_le E W ca fuel,
   fun fuel => run_recvCall_buflen E W ca fuel⟩

theorem run_receive_payload_bounded_witness :
    ({ proto := .udp, source := { ip := .v4 9 9 9 9, port := 4242 }, destination := caW,
       contents := (vecResize ([] : List Nat) 2000 0).take 3 } : Receive).contents.length
      ≤ 2000 :=
  (run_receive_payload_bounded engRecvW worldRecvW caW).1 1 (initState ()) 1
    { proto := .udp, source := { ip := .v4 9 9 9 9, port := 4242 }, destination := caW,
      contents := (vecResize ([] : List Nat) 2000 0).take 3 }
    (by decide)

/-- Failure causes of the receive phase of one iteration: the
set_read_timeout call fails, the receive fails with a non-timeout error
kind, a timed-out receive is followed by a failing feed, or a successful
receive is followed by a failing datagram conversion or a failing
feed. -/
def RecvFatal {σ : Type} (E : Engine σ) (W : World) (ca : SocketAddr)
    (s : RunState σ) (rtc1 : σ) : Prop :=
  (∃ k, W.setReadTimeout s.srtIdx = .error k)
  ∨ (W.setReadTimeout s.srtIdx = .ok ()
     ∧ ((∃ k, W.recv s.recvIdx = .err k ∧ k.isTimeoutKind = false)
        ∨ (∃ k, W.recv s.recvIdx = .err k ∧ k.isTimeoutKind = true
            ∧ ∃ e, E.handleInput rtc1 (.timeout (W.clock (s.nowIdx + 1))) = .error e)
        ∨ (∃ n source, W.recv s.recvIdx = .ok n source
            ∧ ((∃ e, W.datagram ((vecResize s.buf 2000 0).take n) = .error e)
               ∨ (W.datagram ((vecResize s.buf 2000 0).take n) = .ok ()
                  ∧ ∃ e, E.handleInput rtc1 (.receive (W.clock (s.nowIdx + 1))
                      { proto := .udp, source := source, destination := ca,
                        contents := (vecResize s.buf 2000 0).take n }) = .error e)))))

/-- Failure causes of one whole iteration: a poll error, a send error, an
already-elapsed deadline followed by a failing feed, or a positive wait
whose receive phase fails as in RecvFatal. -/
def FatalStep {σ : Type} (E : Engine σ) (W : World) (ca : SocketAddr)
    (s : RunState σ) : Prop :=
  (∃ e, E.poll s.rtc = .error e)
  ∨ (∃ v σ2 k, E.poll s.rtc = .ok (.transmit v, σ2) ∧ W.send s.sendIdx = .error k)
  ∨ (∃ dl σ2, E.poll s.rtc = .ok (.timeout dl, σ2) ∧ dl - W.clock s.nowIdx = 0
      ∧ ∃ e, E.handleInput σ2 (.timeout (W.clock (s.nowIdx + 1))) = .error e)
  ∨ (∃ dl σ2, E.poll s.rtc = .ok (.timeout dl, σ2) ∧ 0 < dl - W.clock s.nowIdx
      ∧ RecvFatal E W ca s σ2)

theorem recvPhase_error_characterization {σ : Type} (E : Engine σ) (W : World)
    (ca : SocketAddr) (s : RunState σ) (rtc1 : σ) (tmo : Nat) :
    (∃ e, (recvPhase E W ca s rtc1 tmo).1 = .done (.error e)) ↔
      RecvFatal E W ca s rtc1 := by
  cases hsrt : W.setReadTimeout s.srtIdx with
  | error k =>
    exact iff_of_true ⟨.io k, by simp [recvPhase, hsrt]⟩ (Or.inl ⟨k, hsrt⟩)
  | ok u =>
    cases u
    cases hr : W.recv s.recvIdx with
    | ok n source =>
      cases hdg : W.datagram ((vecResize s.buf 2000 0).take n) with
      | error e =>
        exact iff_of_true ⟨e, by simp [recvPhase, hsrt, hr, hdg]⟩
          (Or.inr ⟨hsrt, Or.inr (Or.inr ⟨n, source, hr, Or.inl ⟨e, hdg⟩⟩)⟩)
      | ok u2 =>
        cases u2
        cases hE : E.handleInput rtc1 (.receive (W.clock (s.nowIdx + 1))
            { proto := .udp, source := source, destination := ca,
              contents := (vecResize s.buf 2000 0).take n }) with
        | error e =>
          exact iff_of_true ⟨e, by simp [recvPhase, hsrt, hr, hdg, hE]⟩
            (Or.inr ⟨hsrt, Or.inr (Or.inr ⟨n, source, hr, Or.inr ⟨hdg, e, hE⟩⟩)⟩)
        | ok rtc2 =>
          refine iff_of_false ?_ ?_
          · rintro ⟨e, he⟩
            simp [recvPhase, hsrt, hr, hdg, hE] at he
          · rintro (⟨k, hk⟩ | ⟨hok, hrest⟩)
            · simp [hsrt] at hk
            · rcases hrest with ⟨k, hk, hkt⟩ | ⟨k, hk, hkt, e, he⟩ | ⟨n2, source2, hr2, hcase⟩
              · simp [hr] at hk
              · simp [hr] at hk
              · rw [hr] at hr2
                injection hr2 with h1 h2
                subst h1
                subst h2
                rcases hcase with ⟨e, hdg2⟩ | ⟨hdgok, e, he2⟩
                · simp [hdg] at hdg2
                · simp [hE] at he2
    | err k =>
      by_cases hk : k.isTimeoutKind
      · cases hE : E.handleInput rtc1 (.timeout (W.clock (s.nowIdx + 1))) with
        | error e =>
          exact iff_of_true ⟨e, by simp [recvPhase, hsrt, hr, hk, hE]⟩
            (Or.inr ⟨hsrt, Or.inr (Or.inl ⟨k, hr, hk, e, hE⟩)⟩)
        | ok rtc2 =>
          refine iff_of_false ?_ ?_
          · rintro ⟨e, he⟩
            simp [recvPhase, hsrt, hr, hk, hE] at he
          · rintro (⟨k2, hk2⟩ | ⟨hok, hrest⟩)
            · simp [hsrt] at hk2
            · rcases hrest with ⟨k2, hk2, hkt⟩ | ⟨k2, hk2, hkt, e, he⟩ | ⟨n2, source2, hr2, hcase⟩
              · rw [hr] at hk2
                injection hk2 with h1
                subst h1
                rw [hk] at hkt
                cases hkt
              · rw [hr] at hk2
                injection hk2 with h1
                subst h1
                simp [hE] at he
              · simp [hr] at hr2
      · have hk2 : k.isTimeoutKind = false := by
          cases hkk : k.isTimeoutKind
          · rfl
          · exact absurd hkk hk
        exact iff_of_true ⟨.io k, by simp [recvPhase, hsrt, hr, hk2]⟩
          (Or.inr ⟨hsrt, Or.inl ⟨k, hr, hk2⟩⟩)

theorem recvPhase_not_done_ok {σ : Type} (E : Engine σ) (W : World) (ca : SocketAddr)
    (s : RunState σ) (rtc1 : σ) (tmo : Nat) :
    (recvPhase E W ca s rtc1 tmo).1 ≠ .done (.ok ()) := by
  intro h
  cases hsrt : W.setReadTimeout s.srtIdx with
  | error k => simp [recvPhase, hsrt] at h
  | ok u =>
    cases u
    cases hr : W.recv s.recvIdx with
    | ok n source =>
      cases hdg : W.datagram ((vecResize s.buf 2000 0).take n) with
      | error e => simp [recvPhase, hsrt, hr, hdg] at h
      | ok u2 =>
        cases u2
        cases hE : E.handleInput rtc1 (.receive (W.clock (s.nowIdx + 1))
            { proto := .udp, source := source, destination := ca,
              contents := (vecResize s.buf 2000 0).take n }) with
        | error e => simp [recvPhase, hsrt, hr, hdg, hE] at h
        | ok rtc2 => simp [recvPhase, hsrt, hr, hdg, hE] at h
    | err k =>
      by_cases hk : k.isTimeoutKind
      · cases hE : E.handleInput rtc1 (.timeout (W.clock (s.nowIdx + 1))) with
        | error e => simp [recvPhase, hsrt, hr, hk, hE] at h
        | ok rtc2 => simp [recvPhase, hsrt, hr, hk, hE] at h
      · simp [recvPhase, hsrt, hr, hk] at h

/-- C2 (amended): one loop iteration returns success exactly when the
poll reported the connectivity-disconnected event; it returns an error
exactly when a poll error, a send io error, a failing feed after an
elapsed deadline, or a receive-phase failure (set_read_timeout error,
non-timeout receive error, failing datagram conversion, or failing
feed) occurred; and on any polled event other than disconnected the
iteration continues. Applied at every reachable state this
characterizes when the loop terminates. -/
theorem run_termination_characterization {σ : Type} (E : Engine σ) (W : World)
    (ca : SocketAddr) (s : RunState σ) :
    ((step E W ca s).1 = .done (.ok ()) ↔
      ∃ σ2, E.poll s.rtc = .ok (.event disconnectedEv, σ2))
    ∧ ((∃ e, (step E W ca s).1 = .done (.error e)) ↔ FatalStep E W ca s)
    ∧ (∀ v σ2, E.poll s.rtc = .ok (.event v, σ2) → v ≠ disconnectedEv →
        (step E W ca s).1 = .cont { s with rtc := σ2 }) := by
  cases hp : E.poll s.rtc with
  | error e =>
    refine ⟨?_, ?_, ?_⟩
    · refine iff_of_false ?_ ?_
      · intro h; simp [step, hp] at h
      · rintro ⟨σ2, h2⟩; simp at h2
    · constructor
      · intro _; exact Or.inl ⟨e, hp⟩
      · intro _; exact ⟨e, by simp [step, hp]⟩
    · intro v σ2 h2 _; simp at h2
  | ok p =>
    obtain ⟨o, rtc1⟩ := p
    cases o with
    | transmit v =>
      cases hs2 : W.send s.sendIdx with
      | error k =>
        refine ⟨?_, ?_, ?_⟩
        · refine iff_of_false (by simp [step, hp, hs2]) ?_
          rintro ⟨σ2, h2⟩; simp at h2
        · constructor
          · intro _; exact Or.inr (Or.inl ⟨v, rtc1, k, hp, hs2⟩)
          · intro _; exact ⟨.io k, by simp [step, hp, hs2]⟩
        · intro v2 σ2 h2 _; simp at h2
      | ok u =>
        cases u
        refine ⟨?_, ?_, ?_⟩
        · refine iff_of_false (by simp [step, hp, hs2]) ?_
          rintro ⟨σ2, h2⟩; simp at h2
        · refine iff_of_false ?_ ?_
          · rintro ⟨e, he⟩; simp [step, hp, hs2] at he
          · rintro (⟨e, he⟩ | ⟨v2, σ2, k, h2, hk⟩ | ⟨dl, σ2, h2, -, -⟩ | ⟨dl, σ2, h2, -, -⟩)
            · rw [hp] at he; simp at he
            · rw [hs2] at hk; simp at hk
            · rw [hp] at h2; simp at h2
            · rw [hp] at h2; simp at h2
        · intro v2 σ2 h2 _; simp at h2
    | event v =>
      by_cases hv : v = disconnectedEv
      · subst hv
        refine ⟨?_, ?_, ?_⟩
        · exact iff_of_true (by simp [step, hp]) ⟨rtc1, rfl⟩
        · refine iff_of_false ?_ ?_
          · rintro ⟨e, he⟩; simp [step, hp] at he
          · rintro (⟨e, he⟩ | ⟨v2, σ2, k, h2, hk⟩ | ⟨dl, σ2, h2, -, -⟩ | ⟨dl, σ2, h2, -, -⟩)
            · rw [hp] at he; simp at he
            · rw [hp] at h2; simp at h2
            · rw [hp] at h2; simp at h2
            · rw [hp] at h2; simp at h2
        · intro v2 σ2 h2 hne
          injection h2 with h3
          injection h3 with h4 h5
          injection h4 with h6
          exact absurd h6.symm hne
      · refine ⟨?_, ?_, ?_⟩
        · refine iff_of_false ?_ ?_
          · intro h; simp [step, hp, hv] at h
          · rintro ⟨σ2, h2⟩
            injection h2 with h3
            injection h3 with h4 h5
            injection h4 with h6
            exact hv h6
        · refine iff_of_false ?_ ?_
          · rintro ⟨e, he⟩; simp [step, hp, hv] at he
          · rintro (⟨e, he⟩ | ⟨v2, σ2, k, h2, hk⟩ | ⟨dl, σ2, h2, -, -⟩ | ⟨dl, σ2, h2, -, -⟩)
            · rw [hp] at he; simp at he
            · rw [hp] at h2; simp at h2
            · rw [hp] at h2; simp at h2
            · rw [hp] at h2; simp at h2
        · intro v2 σ2 h2 hne
          injection h2 with h3
          injection h3 with h4 h5
          injection h4 with h6
          subst h6
          subst h5
          simp [step, hp, hv]
    | timeout dl =>
      by_cases hz : dl - W.clock s.nowIdx = 0
      · refine ⟨?_, ?_, ?_⟩
        · refine iff_of_false ?_ ?_
          · intro h
            cases hE : E.handleInput rtc1 (.timeout (W.clock (s.nowIdx + 1))) with
            | error e => simp [step, hp, hz, hE] at h
            | ok rtc2 => simp [step, hp, hz, hE] at h
          · rintro ⟨σ2, h2⟩; simp at h2
        · constructor
          · rintro ⟨e, he⟩
            cases hE : E.handleInput rtc1 (.timeout (W.clock (s.nowIdx + 1))) with
            | error e2 => exact Or.inr (Or.inr (Or.inl ⟨dl, rtc1, hp, hz, e2, hE⟩))
            | ok rtc2 => simp [step, hp, hz, hE] at he
          · rintro (⟨e, he⟩ | ⟨v2, σ2, k, h2, hk⟩ | ⟨dl2, σ2, h2, hz2, e, hE⟩ |
              ⟨dl2, σ2, h2, hpos2, hrf⟩)
            · rw [hp] at he; simp at he
            · rw [hp] at h2; simp at h2
            · rw [hp] at h2
              injection h2 with h3
              injection h3 with h4 h5
              injection h4 with h6
              subst h6
              subst h5
              exact ⟨e, by simp [step, hp, hz, hE]⟩
            · rw [hp] at h2
              injection h2 with h3
              injection h3 with h4 h5
              injection h4 with h6
              subst h6
              omega
        · intro v2 σ2 h2 _; simp at h2
      · have hstep1 : (step E W ca s).1 =
            (recvPhase E W ca s rtc1 (dl - W.clock s.nowIdx)).1 := by
          simp [step, hp, hz]
        refine ⟨?_, ?_, ?_⟩
        · rw [hstep1]
          refine iff_of_false (recvPhase_not_done_ok E W ca s rtc1 _) ?_
          rintro ⟨σ2, h2⟩; simp at h2
        · rw [hstep1]
          rw [recvPhase_error_characterization E W ca s rtc1 (dl - W.clock s.nowIdx)]
          constructor
          · intro hrf
            exact Or.inr (Or.inr (Or.inr ⟨dl, rtc1, hp, Nat.pos_of_ne_zero hz, hrf⟩))
          · rintro (⟨e, he⟩ | ⟨v2, σ2, k, h2, hk⟩ | ⟨dl2, σ2, h2, hz2, e, hE⟩ |
              ⟨dl2, σ2, h2, hpos2, hrf⟩)
            · rw [hp] at he; simp at he
            · rw [hp] at h2; simp at h2
            · rw [hp] at h2
              injection h2 with h3
              injection h3 with h4 h5
              injection h4 with h6
              subst h6
              exact absurd hz2 hz
            · rw [hp] at h2
              injection h2 with h3
              injection h3 with h4 h5
              injection h4 with h6
              subst h6
              subst h5
              exact hrf
        · intro v2 σ2 h2 _; simp at h2

/-- Engine that immediately reports the disconnected connectivity
event. -/
def engDiscW : Engine Unit :=
  { poll := fun u => .ok (.event disconnectedEv, u),
    handleInput := fun u _ => .ok u }

theorem run_termination_characterization_witness :
    (step engDiscW worldW caW (initState ())).1 = .done (.ok ()) :=
  (run_termination_characterization engDiscW worldW caW (initState ())).1.mpr ⟨(), rfl⟩

/-- Engine for the termination counterexample: always waits until tick
10 and never errors on a poll or feed call. -/
def engDgW : Engine Unit :=
  { poll := fun u => .ok (.timeout 10, u),
    handleInput := fun u _ => .ok u }

/-- World for the termination counterexample: clock at 0, every io
operation succeeds, a 4-byte datagram arrives from 8.8.8.8:53 but fails
the DatagramRecv conversion. -/
def worldDgW : World :=
  { clock := fun _ => 0,
    send := fun _ => .ok (),
    setReadTimeout := fun _ => .ok (),
    recv := fun _ => .ok 4 { ip := .v4 8 8 8 8, port := 53 },
    datagram := fun _ => .error (.netParse 3) }

set_option maxRecDepth 40000 in
/-- Counterexample to C2 as stated: this run terminates with an error
although the engine never reported disconnected, no io error occurred
(the trace shows the one receive call succeeded), and no poll or feed
call returned an error (the trace contains no fed input at all, and the
only poll returned a Wait action): the received datagram fails the
TryFrom conversion at main.rs:201 and the question-mark operator there
ends the loop with that engine-typed error. -/
theorem run_termination_counterexample :
    (run engDgW worldDgW caW 1 (initState ())).1 = some (.error (.netParse 3))
    ∧ engDgW.poll () = .ok (.timeout 10, ())
    ∧ worldDgW.setReadTimeout 0 = .ok ()
    ∧ worldDgW.recv 0 = .ok 4 { ip := .v4 8 8 8 8, port := 53 }
    ∧ (run engDgW worldDgW caW 1 (initState ())).2 =
        [.polled (.timeout 10), .setTimeout 10,
         .recvCall 2000 (.ok 4 { ip := .v4 8 8 8 8, port := 53 })] :=
  ⟨rfl, rfl, rfl, rfl, rfl⟩

end Str0mBridge
